import Mathlib

/-!
Verification of the CouchDB event-source reconciler.

This file gives a shallow embedding of the reconciler package (the single
Go source file of the repository) and proves the specified properties of
its operations: the event-type diff (computeDiff), the worker-deployment
reconcile (createReceiveAdapter, podSpecChanged), the event-type apply step
(reconcileEventTypes), the event-source derivation (makeEventSource) and
the orchestrating entry point (ReconcileKind).

External collaborators (the object store, the sink resolver, the secret
store, URL parsing) are modelled as an explicit environment of
Lean functions; helper constructors that live outside this repository
(MakeReceiveAdapter, MakeEventType, the event-kind constants, deep
derivative comparison) are modelled from the specification and marked as
such in their doc comments.
-/

namespace CouchDb

/-- Embedding of eventingv1alpha1.EventTypeSpec: the fields used by the
reconciler (the four identity fields plus the description carried along
for deep spec equality). -/
structure EventTypeSpec where
  type : String
  source : String
  schema : String
  broker : String
  description : String
deriving DecidableEq, Repr

/-- Embedding of eventingv1alpha1.EventType: object name, the controlling
owner (the UID recorded by the owner reference, if any) and the spec. -/
structure EventType where
  name : String
  controller : Option String
  spec : EventTypeSpec
deriving DecidableEq, Repr

/-- Embedding of keyFromEventType: the underscore-joined identity string. -/
def keyFromEventType (eventType : EventType) : String :=
  eventType.spec.type ++ "_" ++ eventType.spec.source ++ "_" ++
    eventType.spec.schema ++ "_" ++ eventType.spec.broker

/-- The four-tuple identity key (type, source, schema, broker) named by the
specification. -/
def etKey (eventType : EventType) : String × String × String × String :=
  (eventType.spec.type, eventType.spec.source, eventType.spec.schema, eventType.spec.broker)

/-- Embedding of asMap: inserts every record into a Go map keyed by
keyFromEventType. Later insertions overwrite earlier ones, which the
association list models by prepending (lookup finds the latest entry). -/
def asMap (eventTypes : List EventType) : List (String × EventType) :=
  eventTypes.foldl (fun m eventType => (keyFromEventType eventType, eventType) :: m) []

/-- Embedding of the first loop of computeDiff: iterate over the expected
slice; a record whose key is absent from the current map is appended to
toCreate; on a key hit with unequal specs the current record is appended
to toDelete and the expected one to toCreate. -/
def diffExpectedLoop (currentMap : List (String × EventType)) :
    List EventType → List EventType × List EventType
  | [] => ([], [])
  | e :: rest =>
    let acc := diffExpectedLoop currentMap rest
    match currentMap.lookup (keyFromEventType e) with
    | none => (e :: acc.1, acc.2)
    | some c => if e.spec = c.spec then acc else (e :: acc.1, c :: acc.2)

/-- Embedding of the second loop of computeDiff: every current record whose
key is absent from the expected map is appended to toDelete. -/
def diffCurrentLoop (expectedMap : List (String × EventType)) :
    List EventType → List EventType
  | [] => []
  | c :: rest =>
    match expectedMap.lookup (keyFromEventType c) with
    | some _ => diffCurrentLoop expectedMap rest
    | none => c :: diffCurrentLoop expectedMap rest

/-- Embedding of computeDiff: returns (toCreate, toDelete). -/
def computeDiff (current expected : List EventType) :
    List EventType × List EventType :=
  let p := diffExpectedLoop (asMap current) expected
  (p.1, p.2 ++ diffCurrentLoop (asMap expected) current)

/-- Decision made by the first loop of computeDiff for one expected record:
create it when its key misses the current map or the hit has a different
spec. -/
def shouldCreate (currentMap : List (String × EventType)) (e : EventType) : Bool :=
  match currentMap.lookup (keyFromEventType e) with
  | none => true
  | some c => decide (e.spec ≠ c.spec)

/-- Deletion emitted by the first loop of computeDiff for one expected
record: the current record hit by the key, when its spec differs. -/
def deleteHit (currentMap : List (String × EventType)) (e : EventType) : Option EventType :=
  match currentMap.lookup (keyFromEventType e) with
  | none => none
  | some c => if e.spec = c.spec then none else some c

/-- Embedding of corev1.EnvVar restricted to the fields this model carries. -/
structure EnvVar where
  name : String
  value : String
deriving DecidableEq, Repr

/-- Embedding of corev1.Container restricted to the fields this model
carries: name, image, the environment-variable list and arguments. -/
structure Container where
  name : String
  image : String
  env : List EnvVar
  args : List String
deriving DecidableEq, Repr

/-- Embedding of corev1.PodSpec restricted to the fields this model
carries: the container list and the service account name. -/
structure PodSpec where
  containers : List Container
  serviceAccountName : String
deriving DecidableEq, Repr

/-- Modelled from the spec: the deep-derivative (superset-compatible)
comparison primitive for strings, an external collaborator
(k8s equality.Semantic.DeepDerivative). A zero value on the desired side
is treated as unset and ignored. -/
def strDD (n o : String) : Bool := n == "" || n == o

/-- Modelled from the spec: the deep-derivative comparison primitive for
lists. An empty desired list is treated as unset; otherwise the lengths
must agree and elements are compared derivatively in order. -/
def listDD {α : Type} (dd : α → α → Bool) (n o : List α) : Bool :=
  if n.isEmpty then true
  else n.length == o.length && (n.zip o).all fun p => dd p.1 p.2

/-- Deep-derivative comparison for environment variables. -/
def envVarDD (n o : EnvVar) : Bool := strDD n.name o.name && strDD n.value o.value

/-- Deep-derivative comparison for containers. -/
def containerDD (n o : Container) : Bool :=
  strDD n.name o.name && strDD n.image o.image &&
    listDD envVarDD n.env o.env && listDD strDD n.args o.args

/-- Deep-derivative comparison for pod specs. -/
def podSpecDD (n o : PodSpec) : Bool :=
  listDD containerDD n.containers o.containers &&
    strDD n.serviceAccountName o.serviceAccountName

/-- Embedding of podSpecChanged: drift when the desired pod spec is not a
deep-derivative match of the current one, container counts differ, or the
environment-variable list of some container differs under deep equality. -/
def podSpecChanged (oldPodSpec newPodSpec : PodSpec) : Bool :=
  if !(podSpecDD newPodSpec oldPodSpec) then true
  else if oldPodSpec.containers.length != newPodSpec.containers.length then true
  else (newPodSpec.containers.zip oldPodSpec.containers).any fun p => p.1.env != p.2.env

/-- Drift exactly as the specification words it: the desired pod spec is
not a superset-compatible (deep-derivative) match of the current one, or
the environment-variable list of some paired container differs
element-wise. -/
def specDrift (newPS oldPS : PodSpec) : Bool :=
  !(podSpecDD newPS oldPS) ||
    (newPS.containers.zip oldPS.containers).any fun p => p.1.env != p.2.env

/-- Embedding of appsv1.Deployment restricted to what the reconciler
inspects: the object name, the controlling owner UID recorded by the
owner reference (if any), and the pod spec of the template. -/
structure Deployment where
  name : String
  controller : Option String
  podSpec : PodSpec
deriving DecidableEq, Repr

/-- Embedding of metav1.IsControlledBy for deployments: the object carries
a controlling owner reference to the given UID. -/
def isControlledBy (d : Deployment) (uid : String) : Bool :=
  d.controller == some uid

/-- Embedding of metav1.IsControlledBy for event types. -/
def etControlledBy (et : EventType) (uid : String) : Bool :=
  et.controller == some uid

/-- Embedding of corev1.ObjectReference restricted to the fields the
reconciler reads: kind, name, namespace and api version. -/
structure ObjectRef where
  kind : String
  name : String
  ns : String
  apiVersion : String
deriving DecidableEq, Repr

/-- Embedding of the duck-typed Destination: a structured object
reference, or a legacy (deprecated) name/namespace/kind/apiVersion
quadruple. -/
structure Destination where
  ref : Option ObjectRef
  deprecatedAPIVersion : String
  deprecatedKind : String
  deprecatedName : String
  deprecatedNamespace : String
deriving DecidableEq, Repr

/-- Modelled from the spec: Destination.GetRef of the knative duck types
(outside this source tree of this repository) returns the structured reference
of the sink. -/
def Destination.getRef (d : Destination) : Option ObjectRef := d.ref

/-- GetRef lifted over the possibly-nil sink pointer. -/
def sinkGetRef (sink : Option Destination) : Option ObjectRef :=
  match sink with
  | none => none
  | some d => d.getRef

/-- Embedding of the CouchDbSource spec fields the reconciler reads: the
sink, the credential-secret coordinates and the database name. -/
structure SourceSpec where
  sink : Option Destination
  credentialsName : String
  credentialsNs : String
  database : String
deriving DecidableEq, Repr

/-- Embedding of a CouchDbSource object: name, namespace, UID and spec.
Status conditions are modelled as the trace of status marks recorded by
ReconcileKind. -/
structure Source where
  name : String
  ns : String
  uid : String
  spec : SourceSpec
deriving DecidableEq, Repr

/-- Embedding of a secret payload: a keyed byte-blob map. -/
structure SecretData where
  data : List (String × String)
deriving DecidableEq, Repr

/-- Outcome of the deployment lookup issued against the object store. -/
inductive GetResult where
  | notFound
  | getErr (m : String)
  | found (d : Deployment)
deriving DecidableEq, Repr

/-- Error values returned by the reconciler: collaborator errors returned
as-is, the wrapped get error, the ownership-conflict error, the missing
sink error and the wrapped sink-resolution error. -/
inductive Err where
  | msg (s : String)
  | getWrap (s : String)
  | notOwned (deploymentName sourceName : String)
  | sinkMissing
  | sinkWrap (s : String)
deriving DecidableEq, Repr

/-- Modelled from the spec: the error taxonomy of §7 classifies
configuration errors — a missing sink and ownership conflicts — as
non-retryable (terminal for the pass), and everything else as retryable.
The retry machinery itself lives in the surrounding controller framework,
outside this source tree of this repository. -/
def Err.isTerminalConfig : Err → Bool
  | .sinkMissing => true
  | .notOwned _ _ => true
  | _ => false

/-- The external collaborators consumed by the reconciler: sink resolver,
secret store, URL parsing, deployment store and event-type store. -/
structure Env where
  resolveURI : Destination → Except String String
  secretGet : String → String → Except String SecretData
  urlHostname : String → Except String String
  getDeployment : String → GetResult
  createDeployment : Deployment → Option Deployment × Option String
  updateDeployment : Deployment → Option Deployment × Option String
  listEventTypes : Except String (List EventType)
  deleteEventType : EventType → Option String
  createEventType : EventType → Option String

/-- Rendering of a Go error value inside a formatted message, as
fmt.Sprintf renders a possibly-nil error with the v verb. -/
def fmtGoErr : Option String → String
  | none => "<nil>"
  | some s => s

/-- Embedding of makeEventSource: read the credentials secret (defaulting
its namespace to the namespace of the source), extract the url field and
combine the parsed hostname with the database name. When the url field is
absent the function returns the empty string together with the error
value in scope, which is nil at that point. -/
def makeEventSource (ev : Env) (src : Source) : Except Err String :=
  let nsp := if src.spec.credentialsNs == "" then src.ns else src.spec.credentialsNs
  match ev.secretGet nsp src.spec.credentialsName with
  | .error e => .error (.msg e)
  | .ok secret =>
    match secret.data.lookup "url" with
    | none => .ok ""
    | some rawurl =>
      match ev.urlHostname rawurl with
      | .error e => .error (.msg e)
      | .ok host => .ok (host ++ "/" ++ src.spec.database)

/-- Modelled from the spec: resources.MakeReceiveAdapter (outside this
source tree of this repository) deterministically builds the worker deployment
from the source, the event origin, the image and the sink URI: a
deployment with a derived name, controlled by the source, carrying one
worker container whose environment embeds the event source and the sink
URI. -/
def MakeReceiveAdapter (src : Source) (eventSource image sinkURI : String) : Deployment :=
  { name := "couchdbsource-" ++ src.name
    controller := some src.uid
    podSpec :=
      { containers :=
          [{ name := "receive-adapter"
             image := image
             env := [⟨"EVENT_SOURCE", eventSource⟩, ⟨"SINK_URI", sinkURI⟩]
             args := [] }]
        serviceAccountName := "" } }

/-- Write calls the deployment reconcile can issue against the store. -/
inductive WriteOp where
  | create (d : Deployment)
  | update (d : Deployment)
deriving DecidableEq, Repr

/-- Observable outcome of createReceiveAdapter: the write calls issued,
the notification events recorded, and the returned deployment and error. -/
structure AdapterOut where
  writes : List WriteOp
  events : List String
  ra : Option Deployment
  err : Option Err
deriving DecidableEq, Repr

/-- Embedding of createReceiveAdapter: derive the event source and the
expected deployment, look the deployment up by name, then create when
absent, fail when the lookup fails or the object is foreign, update on
pod-spec drift, and otherwise reuse the existing object. -/
def createReceiveAdapter (ev : Env) (src : Source) (sinkURI image : String) : AdapterOut :=
  match makeEventSource ev src with
  | .error e => { writes := [], events := [], ra := none, err := some e }
  | .ok eventSource =>
    let expected := MakeReceiveAdapter src eventSource image sinkURI
    match ev.getDeployment expected.name with
    | .notFound =>
      let ret := ev.createDeployment expected
      { writes := [.create expected]
        events := ["Deployment created, error: " ++ fmtGoErr ret.2]
        ra := ret.1
        err := ret.2.map .msg }
    | .getErr m =>
      { writes := [], events := [], ra := none, err := some (.getWrap m) }
    | .found ra =>
      if !(isControlledBy ra src.uid) then
        { writes := [], events := [], ra := none,
          err := some (.notOwned ra.name src.name) }
      else if podSpecChanged ra.podSpec expected.podSpec then
        let ra2 := { ra with podSpec := expected.podSpec }
        let ret := ev.updateDeployment ra2
        match ret.2 with
        | some m => { writes := [.update ra2], events := [], ra := ret.1, err := some (.msg m) }
        | none =>
          { writes := [.update ra2], events := ["Deployment updated"],
            ra := ret.1, err := none }
      else
        { writes := [], events := [], ra := some ra, err := none }

/-- Modelled from the spec: the update event-kind constant of the fixed
two-element enumeration; its literal value lives outside this
source tree of this repository. -/
def CouchDbSourceUpdateEventType : String := "org.apache.couchdb.document.update"

/-- Modelled from the spec: the delete event-kind constant of the fixed
two-element enumeration; its literal value lives outside this
source tree of this repository. -/
def CouchDbSourceDeleteEventType : String := "org.apache.couchdb.document.delete"

/-- Embedding of couchDbEventTypes: the fixed enumeration of supported
event kinds. -/
def couchDbEventTypes : List String :=
  [CouchDbSourceUpdateEventType, CouchDbSourceDeleteEventType]

/-- Modelled from the spec: resources.MakeEventType (outside this
source tree of this repository) builds an owned event-type record whose
identity is the four-tuple of the event kind, the event origin, an empty
schema and the broker name taken from the sink reference. -/
def MakeEventType (src : Source) (eventSource t : String) : EventType :=
  let brokerName :=
    match sinkGetRef src.spec.sink with
    | some r => r.name
    | none => ""
  { name := src.name ++ "-" ++ t
    controller := some src.uid
    spec :=
      { type := t
        source := eventSource
        schema := ""
        broker := brokerName
        description := "" } }

/-- Embedding of getEventTypes: list the event types and keep those
controlled by the source. -/
def getEventTypes (ev : Env) (src : Source) : Except Err (List EventType) :=
  match ev.listEventTypes with
  | .error e => .error (.msg e)
  | .ok etl => .ok (etl.filter fun et => etControlledBy et src.uid)

/-- Embedding of makeEventTypes: the expected set is empty unless the
structured sink reference has kind Broker; otherwise one record per
supported event kind, tagged with the derived event source. -/
def makeEventTypes (ev : Env) (src : Source) : Except Err (List EventType) :=
  match sinkGetRef src.spec.sink with
  | none => .ok []
  | some r =>
    if r.kind != "Broker" then .ok []
    else
      match makeEventSource ev src with
      | .error e => .error e
      | .ok eventSource => .ok (couchDbEventTypes.map fun t => MakeEventType src eventSource t)

/-- Event-type write calls issued against the store (the delete call is
issued with the record name). -/
inductive ETOp where
  | del (et : EventType)
  | create (et : EventType)
deriving DecidableEq, Repr

/-- One apply loop of reconcileEventTypes: issue the call for every
record in order and stop at the first failure, returning the records
attempted and the first error. -/
def applyLoop (f : EventType → Option String) : List EventType → List EventType × Option String
  | [] => ([], none)
  | e :: rest =>
    match f e with
    | some m => ([e], some m)
    | none =>
      let acc := applyLoop f rest
      (e :: acc.1, acc.2)

/-- Embedding of the apply step of reconcileEventTypes: issue all deletes,
fail fast on the first failing delete, then issue all creates, failing
fast on the first failing create. -/
def applyEventTypes (ev : Env) (toCreate toDelete : List EventType) :
    List ETOp × Option Err :=
  let dres := applyLoop ev.deleteEventType toDelete
  match dres.2 with
  | some m => (dres.1.map .del, some (.msg m))
  | none =>
    let cres := applyLoop ev.createEventType toCreate
    (dres.1.map .del ++ cres.1.map ETOp.create, cres.2.map .msg)

/-- Embedding of reconcileEventTypes: list the owned records, compute the
expected set, diff, and apply the diff. -/
def reconcileEventTypes (ev : Env) (src : Source) : List ETOp × Option Err :=
  match getEventTypes ev src with
  | .error e => ([], some e)
  | .ok current =>
    match makeEventTypes ev src with
    | .error e => ([], some e)
    | .ok expected =>
      let diff := computeDiff current expected
      applyEventTypes ev diff.1 diff.2

/-- Status-condition updates recorded on the source during a reconcile
pass, in order. -/
inductive StatusMark where
  | initialized
  | noSink (reason : String)
  | sinkWarnRefDeprecated (uri : String)
  | sink (uri : String)
  | deploymentAvailability (d : Option Deployment)
  | noEventTypes (reason : String)
  | eventTypes
deriving DecidableEq, Repr

/-- Observable outcome of one ReconcileKind pass: the source object as the
call leaves it, the status marks recorded in order, the destinations
passed to the sink resolver, the deployment writes and notification
events, the event-type write calls, and the returned error. -/
structure RKOut where
  source : Source
  marks : List StatusMark
  resolverCalls : List Destination
  deployWrites : List WriteOp
  deployEvents : List String
  etOps : List ETOp
  err : Option Err

/-- Embedding of the namespace defaulting applied to the deep copy of the
sink before resolution: a structured reference without a namespace
inherits the namespace of the source; with no structured reference, a
deprecated name without a deprecated namespace inherits it likewise. -/
def defaultDest (sink : Destination) (src : Source) : Destination :=
  match sink.ref with
  | some r => if r.ns == "" then { sink with ref := some { r with ns := src.ns } } else sink
  | none =>
    if sink.deprecatedName != "" && sink.deprecatedNamespace == "" then
      { sink with deprecatedNamespace := src.ns }
    else sink

/-- Embedding of ReconcileKind: initialize conditions; fail on a missing
sink; resolve the defaulted copy of the sink and mark it; reconcile the
worker deployment and propagate its availability; reconcile the event
types and mark the outcome. -/
def ReconcileKind (ev : Env) (image : String) (source : Source) : RKOut :=
  match source.spec.sink with
  | none =>
    { source := source, marks := [.initialized, .noSink "SinkMissing"],
      resolverCalls := [], deployWrites := [], deployEvents := [], etOps := [],
      err := some .sinkMissing }
  | some sink =>
    let dest := defaultDest sink source
    match ev.resolveURI dest with
    | .error e =>
      { source := source, marks := [.initialized, .noSink "NotFound"],
        resolverCalls := [dest], deployWrites := [], deployEvents := [], etOps := [],
        err := some (.sinkWrap e) }
    | .ok sinkURI =>
      let sinkMark :=
        if sink.deprecatedAPIVersion != "" && sink.deprecatedKind != "" &&
            sink.deprecatedName != "" then
          StatusMark.sinkWarnRefDeprecated sinkURI
        else StatusMark.sink sinkURI
      let ad := createReceiveAdapter ev source sinkURI image
      match ad.err with
      | some e =>
        { source := source, marks := [.initialized, sinkMark],
          resolverCalls := [dest], deployWrites := ad.writes,
          deployEvents := ad.events, etOps := [], err := some e }
      | none =>
        let et := reconcileEventTypes ev source
        match et.2 with
        | some e =>
          { source := source,
            marks := [.initialized, sinkMark, .deploymentAvailability ad.ra,
              .noEventTypes "EventTypesReconcileFailed"],
            resolverCalls := [dest], deployWrites := ad.writes,
            deployEvents := ad.events, etOps := et.1, err := some e }
        | none =>
          { source := source,
            marks := [.initialized, sinkMark, .deploymentAvailability ad.ra,
              .eventTypes],
            resolverCalls := [dest], deployWrites := ad.writes,
            deployEvents := ad.events, etOps := et.1, err := none }

/-- A benign default environment used to instantiate witnesses. -/
def env0 : Env :=
  { resolveURI := fun _ => .ok "http://sink.example/"
    secretGet := fun _ _ => .ok ⟨[("url", "http://db.example:5984")]⟩
    urlHostname := fun _ => .ok "db.example"
    getDeployment := fun _ => .notFound
    createDeployment := fun d => (some d, none)
    updateDeployment := fun d => (some d, none)
    listEventTypes := .ok []
    deleteEventType := fun _ => none
    createEventType := fun _ => none }

/-- A concrete source with a broker sink, used to instantiate witnesses. -/
def srcW2 : Source :=
  { name := "mysource", ns := "default", uid := "uid-1"
    spec :=
      { sink := some
          { ref := some
              { kind := "Broker", name := "default-broker", ns := "default",
                apiVersion := "v1" }
            deprecatedAPIVersion := "", deprecatedKind := "",
            deprecatedName := "", deprecatedNamespace := "" }
        credentialsName := "creds", credentialsNs := "", database := "orders" } }

/-- The worker deployment expected for srcW2 under env0. -/
def expW2 : Deployment := MakeReceiveAdapter srcW2 "db.example/orders" "img" "http://sink.example/"

/-- Environment in which the expected deployment already exists, owned,
with an exactly matching pod spec. -/
def envW2 : Env := { env0 with getDeployment := fun _ => .found expW2 }

/-- Environment in which a deployment with the derived name exists but is
controlled by a foreign owner. -/
def envW3 : Env :=
  { env0 with getDeployment := fun _ => .found { expW2 with controller := some "intruder" } }

/-- Environment whose credentials secret lacks the url key. -/
def envW9 : Env :=
  { env0 with secretGet := fun _ _ => .ok { data := [("username", "admin")] } }

/-- Environment in which the deployment create call fails. -/
def envW10 : Env := { env0 with createDeployment := fun _ => (none, some "boom") }

/-- A concrete source whose sink reference is not broker-kind. -/
def srcW4nb : Source :=
  { srcW2 with spec :=
      { srcW2.spec with sink := some (Destination.mk
          (some { kind := "Service", name := "svc", ns := "default", apiVersion := "v1" })
          "" "" "" "") } }

/-- A concrete owned event-type record. -/
def etW4 : EventType :=
  { name := "old", controller := some "uid-1"
    spec := { type := "t", source := "s", schema := "", broker := "b", description := "" } }

/-- A concrete source with no sink configured. -/
def srcW6 : Source := { srcW2 with spec := { srcW2.spec with sink := none } }

/-- A concrete source whose structured sink reference lacks a namespace. -/
def srcW7 : Source :=
  { srcW2 with spec :=
      { srcW2.spec with sink := some (Destination.mk
          (some { kind := "Broker", name := "default-broker", ns := "", apiVersion := "v1" })
          "" "" "" "") } }

theorem diffExpectedLoop_fst (cm : List (String × EventType)) (l : List EventType) :
    (diffExpectedLoop cm l).1 = l.filter (shouldCreate cm) := by
  induction l with
  | nil => rfl
  | cons e rest ih =>
    cases hl : cm.lookup (keyFromEventType e) with
    | none => simp [diffExpectedLoop, shouldCreate, hl, List.filter_cons, ih]
    | some c =>
      by_cases hs : e.spec = c.spec
      · simp [diffExpectedLoop, shouldCreate, hl, hs, List.filter_cons, ih]
      · simp [diffExpectedLoop, shouldCreate, hl, hs, List.filter_cons, ih]

theorem diffExpectedLoop_snd (cm : List (String × EventType)) (l : List EventType) :
    (diffExpectedLoop cm l).2 = l.filterMap (deleteHit cm) := by
  induction l with
  | nil => rfl
  | cons e rest ih =>
    cases hl : cm.lookup (keyFromEventType e) with
    | none => simp [diffExpectedLoop, deleteHit, hl, List.filterMap_cons, ih]
    | some c =>
      by_cases hs : e.spec = c.spec
      · simp [diffExpectedLoop, deleteHit, hl, hs, List.filterMap_cons, ih]
      · simp [diffExpectedLoop, deleteHit, hl, hs, List.filterMap_cons, ih]

theorem diffCurrentLoop_eq (em : List (String × EventType)) (l : List EventType) :
    diffCurrentLoop em l =
      l.filter (fun c => (em.lookup (keyFromEventType c)).isNone) := by
  induction l with
  | nil => rfl
  | cons c rest ih =>
    simp only [diffCurrentLoop, List.filter_cons]
    cases hl : em.lookup (keyFromEventType c) with
    | none => simp [hl, ih]
    | some e => simp [hl, ih]

theorem asMap_eq_reverse_map (l : List EventType) :
    asMap l = (l.map fun e => (keyFromEventType e, e)).reverse := by
  suffices h : ∀ init : List (String × EventType),
      l.foldl (fun m e => (keyFromEventType e, e) :: m) init =
        (l.map fun e => (keyFromEventType e, e)).reverse ++ init by
    simpa using h []
  induction l with
  | nil => intro init; rfl
  | cons e rest ih =>
    intro init
    simp [List.foldl_cons, ih, List.map_cons]

theorem lookup_eq_none_iff (m : List (String × EventType)) (k : String) :
    m.lookup k = none ↔ ∀ p ∈ m, p.1 ≠ k := by
  induction m with
  | nil => simp [List.lookup]
  | cons a rest ih =>
    obtain ⟨k', v⟩ := a
    by_cases h : k = k'
    · subst h
      simp [List.lookup]
    · have hbe : (k == k') = false := beq_eq_false_iff_ne.mpr h
      simp [List.lookup, hbe, ih, Ne.symm h]

theorem lookup_eq_some_iff (m : List (String × EventType))
    (hd : m.Pairwise fun p q => p.1 ≠ q.1) (k : String) (c : EventType) :
    m.lookup k = some c ↔ (k, c) ∈ m := by
  induction m with
  | nil => simp [List.lookup]
  | cons a rest ih =>
    obtain ⟨k', v⟩ := a
    rw [List.pairwise_cons] at hd
    by_cases h : k = k'
    · subst h
      have hnot : (k, c) ∉ rest := fun hmem => hd.1 (k, c) hmem rfl
      simp [List.lookup, hnot, eq_comm]
    · have hbe : (k == k') = false := beq_eq_false_iff_ne.mpr h
      have hne : (k, c) ≠ (k', v) := by
        intro hcontra
        exact h (congrArg Prod.fst hcontra)
      simp [List.lookup, hbe, ih hd.2, hne]

theorem asMap_pairwise (l : List EventType)
    (hd : l.Pairwise fun a b => keyFromEventType a ≠ keyFromEventType b) :
    (asMap l).Pairwise fun p q => p.1 ≠ q.1 := by
  rw [asMap_eq_reverse_map, List.pairwise_reverse, List.pairwise_map]
  exact hd.imp fun h => Ne.symm h

theorem lookup_asMap_none (l : List EventType) (k : String) :
    (asMap l).lookup k = none ↔ ∀ c ∈ l, keyFromEventType c ≠ k := by
  rw [lookup_eq_none_iff, asMap_eq_reverse_map]
  constructor
  · intro h c hc
    exact h (keyFromEventType c, c)
      (by rw [List.mem_reverse]; exact List.mem_map_of_mem _ hc)
  · intro h p hp
    rw [List.mem_reverse, List.mem_map] at hp
    obtain ⟨e, he, hpe⟩ := hp
    subst hpe
    exact h e he

theorem lookup_asMap_some (l : List EventType)
    (hd : l.Pairwise fun a b => keyFromEventType a ≠ keyFromEventType b)
    (k : String) (c : EventType) :
    (asMap l).lookup k = some c ↔ (c ∈ l ∧ keyFromEventType c = k) := by
  rw [lookup_eq_some_iff (asMap l) (asMap_pairwise l hd), asMap_eq_reverse_map,
    List.mem_reverse, List.mem_map]
  constructor
  · intro h
    obtain ⟨e, he, hpe⟩ := h
    have h1 : keyFromEventType e = k := congrArg Prod.fst hpe
    have h2 : e = c := congrArg Prod.snd hpe
    subst h2
    exact ⟨he, h1⟩
  · intro h
    exact ⟨c, h.1, by rw [h.2]⟩

theorem pairwise_key_inj (l : List EventType)
    (hd : l.Pairwise fun a b => keyFromEventType a ≠ keyFromEventType b)
    (a b : EventType) (ha : a ∈ l) (hb : b ∈ l)
    (hk : keyFromEventType a = keyFromEventType b) : a = b := by
  induction l with
  | nil => cases ha
  | cons x rest ih =>
    rw [List.pairwise_cons] at hd
    rcases List.mem_cons.mp ha with hax | hax <;>
      rcases List.mem_cons.mp hb with hbx | hbx
    · rw [hax, hbx]
    · exact absurd hk (hax ▸ hd.1 b hbx)
    · exact absurd hk.symm (hbx ▸ hd.1 a hax)
    · exact ih hd.2 hax hbx

theorem key_eq_of_etKey_eq (a b : EventType) (h : etKey a = etKey b) :
    keyFromEventType a = keyFromEventType b := by
  simp only [etKey, Prod.mk.injEq] at h
  obtain ⟨h1, h2, h3, h4⟩ := h
  simp [keyFromEventType, h1, h2, h3, h4]

theorem etKey_eq_of_spec_eq (a b : EventType) (h : a.spec = b.spec) :
    etKey a = etKey b := by
  simp [etKey, h]

theorem deleteHit_eq_some_iff (cm : List (String × EventType)) (e c : EventType) :
    deleteHit cm e = some c ↔
      cm.lookup (keyFromEventType e) = some c ∧ e.spec ≠ c.spec := by
  cases hl : cm.lookup (keyFromEventType e) with
  | none => simp [deleteHit, hl]
  | some c1 =>
    by_cases hs : e.spec = c1.spec
    · rw [show deleteHit cm e = none by simp [deleteHit, hl, hs]]
      constructor
      · intro h; cases h
      · rintro ⟨h1, h2⟩
        exact absurd (Option.some.inj h1 ▸ hs) h2

    · simp only [deleteHit, hl, if_neg hs, Option.some.injEq]
      constructor
      · intro h; exact ⟨h, h ▸ hs⟩
      · rintro ⟨h1, _⟩; exact h1

theorem mem_toCreate_iff (current expected : List EventType)
    (hc : current.Pairwise fun a b => keyFromEventType a ≠ keyFromEventType b)
    (e : EventType) :
    e ∈ (computeDiff current expected).1 ↔
      e ∈ expected ∧
        ((∀ c ∈ current, etKey c ≠ etKey e) ∨
         ∃ c ∈ current, etKey c = etKey e ∧ c.spec ≠ e.spec) := by
  rw [show (computeDiff current expected).1 =
        (diffExpectedLoop (asMap current) expected).1 from rfl,
    diffExpectedLoop_fst, List.mem_filter]
  refine and_congr_right fun hmem => ?_
  cases hl : (asMap current).lookup (keyFromEventType e) with
  | none =>
    have hnone := (lookup_asMap_none current (keyFromEventType e)).mp hl
    simp only [shouldCreate, hl]
    constructor
    · intro _
      exact Or.inl fun c hcm hket => hnone c hcm (key_eq_of_etKey_eq c e hket)
    · intro _; trivial
  | some c0 =>
    obtain ⟨hc0mem, hc0key⟩ :=
      (lookup_asMap_some current hc (keyFromEventType e) c0).mp hl
    simp only [shouldCreate, hl, decide_eq_true_eq]
    constructor
    · intro hspec
      by_cases hek : etKey c0 = etKey e
      · exact Or.inr ⟨c0, hc0mem, hek, fun h => hspec h.symm⟩
      · refine Or.inl fun c hcm hket => ?_
        have hkeystr : keyFromEventType c = keyFromEventType c0 :=
          (key_eq_of_etKey_eq c e hket).trans hc0key.symm
        have hceq : c = c0 := pairwise_key_inj current hc c c0 hcm hc0mem hkeystr
        exact hek (hceq ▸ hket)
    · rintro (hA | ⟨c1, hc1m, hk1, hs1⟩)
      · intro hspec
        exact hA c0 hc0mem (etKey_eq_of_spec_eq e c0 hspec).symm
      · have hkeystr : keyFromEventType c1 = keyFromEventType c0 :=
          (key_eq_of_etKey_eq c1 e hk1).trans hc0key.symm
        have hceq : c1 = c0 := pairwise_key_inj current hc c1 c0 hc1m hc0mem hkeystr
        intro hspec
        exact hs1 (hceq ▸ hspec.symm)

theorem mem_toDelete_iff (current expected : List EventType)
    (hc : current.Pairwise fun a b => keyFromEventType a ≠ keyFromEventType b)
    (he : expected.Pairwise fun a b => keyFromEventType a ≠ keyFromEventType b)
    (c : EventType) :
    c ∈ (computeDiff current expected).2 ↔
      c ∈ current ∧
        ((∀ e ∈ expected, etKey e ≠ etKey c) ∨
         ∃ e ∈ expected, etKey e = etKey c ∧ e.spec ≠ c.spec) := by
  have hsnd : (computeDiff current expected).2 =
      expected.filterMap (deleteHit (asMap current)) ++
        current.filter
          (fun x => ((asMap expected).lookup (keyFromEventType x)).isNone) := by
    rw [show (computeDiff current expected).2 =
          (diffExpectedLoop (asMap current) expected).2 ++
            diffCurrentLoop (asMap expected) current from rfl,
      diffExpectedLoop_snd, diffCurrentLoop_eq]
  rw [hsnd, List.mem_append, List.mem_filterMap, List.mem_filter]
  constructor
  · rintro (⟨e0, he0m, hdel⟩ | ⟨hcm, hnone⟩)
    · obtain ⟨hlook, hspec⟩ := (deleteHit_eq_some_iff _ _ _).mp hdel
      obtain ⟨hcm, hckey⟩ :=
        (lookup_asMap_some current hc (keyFromEventType e0) c).mp hlook
      refine ⟨hcm, ?_⟩
      by_cases hek : etKey e0 = etKey c
      · exact Or.inr ⟨e0, he0m, hek, hspec⟩
      · refine Or.inl fun e1 he1m hk1 => ?_
        have hkeystr : keyFromEventType e1 = keyFromEventType e0 :=
          (key_eq_of_etKey_eq e1 c hk1).trans hckey
        have heeq : e1 = e0 := pairwise_key_inj expected he e1 e0 he1m he0m hkeystr
        exact hek (heeq ▸ hk1)
    · refine ⟨hcm, Or.inl fun e1 he1m hk1 => ?_⟩
      have := (lookup_asMap_none expected (keyFromEventType c)).mp
        (Option.isNone_iff_eq_none.mp hnone)
      exact this e1 he1m (key_eq_of_etKey_eq e1 c hk1)
  · rintro ⟨hcm, hAB⟩
    cases hl : (asMap expected).lookup (keyFromEventType c) with
    | none => exact Or.inr ⟨hcm, by simp [hl]⟩
    | some e0 =>
      obtain ⟨he0m, he0key⟩ :=
        (lookup_asMap_some expected he (keyFromEventType c) e0).mp hl
      refine Or.inl ⟨e0, he0m, (deleteHit_eq_some_iff _ _ _).mpr ⟨?_, ?_⟩⟩
      · exact (lookup_asMap_some current hc (keyFromEventType e0) c).mpr
          ⟨hcm, he0key.symm⟩
      · rcases hAB with hA | ⟨e1, he1m, hk1, hs1⟩
        · intro hspec
          exact hA e0 he0m (etKey_eq_of_spec_eq e0 c hspec)
        · have hkeystr : keyFromEventType e1 = keyFromEventType e0 :=
            (key_eq_of_etKey_eq e1 c hk1).trans he0key.symm
          have heeq : e1 = e0 := pairwise_key_inj expected he e1 e0 he1m he0m hkeystr
          exact heeq ▸ hs1

/-- C1 (amended): provided the identity keys are pairwise distinct within
the current list and within the desired list, computeDiff(current, desired)
returns (toCreate, toDelete) such that, keyed by the four-tuple
(type, source, schema, broker): toCreate contains exactly the desired
records whose key is absent from current, toDelete contains exactly the
current records whose key is absent from desired, and every pair of
records sharing a key but whose specs differ under deep structural
equality contributes the desired record to toCreate and the current
record to toDelete. -/
theorem computeDiff_keyed_characterization (current expected : List EventType)
    (hc : current.Pairwise fun a b => keyFromEventType a ≠ keyFromEventType b)
    (he : expected.Pairwise fun a b => keyFromEventType a ≠ keyFromEventType b) :
    (∀ e, e ∈ (computeDiff current expected).1 ↔
      e ∈ expected ∧
        ((∀ c ∈ current, etKey c ≠ etKey e) ∨
         ∃ c ∈ current, etKey c = etKey e ∧ c.spec ≠ e.spec)) ∧
    (∀ c, c ∈ (computeDiff current expected).2 ↔
      c ∈ current ∧
        ((∀ e ∈ expected, etKey e ≠ etKey c) ∨
         ∃ e ∈ expected, etKey e = etKey c ∧ e.spec ≠ c.spec)) :=
  ⟨fun e => mem_toCreate_iff current expected hc e,
   fun c => mem_toDelete_iff current expected hc he c⟩

/-- Witness for C1: the characterization applied at a concrete pair of
lists with distinct keys, showing the fresh desired record lands in
toCreate. -/
theorem computeDiff_keyed_characterization_witness :
    (⟨"y", none, ⟨"t2", "s", "", "b", "d"⟩⟩ : EventType) ∈
      (computeDiff [⟨"x", none, ⟨"t1", "s", "", "b", "d"⟩⟩]
        [⟨"y", none, ⟨"t2", "s", "", "b", "d"⟩⟩]).1 := by
  have h := computeDiff_keyed_characterization
    [⟨"x", none, ⟨"t1", "s", "", "b", "d"⟩⟩]
    [⟨"y", none, ⟨"t2", "s", "", "b", "d"⟩⟩]
    (List.pairwise_singleton _ _) (List.pairwise_singleton _ _)
  exact (h.1 _).mpr ⟨List.mem_singleton.mpr rfl, Or.inl (by decide)⟩

/-- Counterexample to C1 as frozen: with two current records sharing the
four-tuple key (differing only in description) and one desired record
whose spec equals the later current record, computeDiff returns empty
toCreate and toDelete, although the desired record and the earlier current
record share a key with differing specs, so the claim requires the earlier
current record in toDelete. The Go map built by asMap keeps only the last
record per key, so duplicate-keyed current records defeat the claimed
characterization. -/
theorem computeDiff_claim_counterexample :
    (⟨"y", none, ⟨"t", "s", "", "b", "d2"⟩⟩ : EventType) ∈
        [(⟨"y", none, ⟨"t", "s", "", "b", "d2"⟩⟩ : EventType)] ∧
      (⟨"x1", none, ⟨"t", "s", "", "b", "d1"⟩⟩ : EventType) ∈
        [(⟨"x1", none, ⟨"t", "s", "", "b", "d1"⟩⟩ : EventType),
         ⟨"x2", none, ⟨"t", "s", "", "b", "d2"⟩⟩] ∧
      etKey ⟨"x1", none, ⟨"t", "s", "", "b", "d1"⟩⟩ =
        etKey ⟨"y", none, ⟨"t", "s", "", "b", "d2"⟩⟩ ∧
      (⟨"x1", none, ⟨"t", "s", "", "b", "d1"⟩⟩ : EventType).spec ≠
        (⟨"y", none, ⟨"t", "s", "", "b", "d2"⟩⟩ : EventType).spec ∧
      (⟨"x1", none, ⟨"t", "s", "", "b", "d1"⟩⟩ : EventType) ∉
        (computeDiff
          [⟨"x1", none, ⟨"t", "s", "", "b", "d1"⟩⟩,
           ⟨"x2", none, ⟨"t", "s", "", "b", "d2"⟩⟩]
          [⟨"y", none, ⟨"t", "s", "", "b", "d2"⟩⟩]).2 := by
  refine ⟨List.mem_singleton.mpr rfl, List.mem_cons_self _ _, by decide, by decide, ?_⟩
  decide

theorem strDD_refl (s : String) : strDD s s = true := by
  simp [strDD]

theorem zip_self_all {α : Type} (dd : α → α → Bool) (hrefl : ∀ a, dd a a = true)
    (l : List α) : ((l.zip l).all fun p => dd p.1 p.2) = true := by
  induction l with
  | nil => rfl
  | cons a t ih => simp [List.zip_cons_cons, hrefl a, ih]

theorem listDD_refl {α : Type} (dd : α → α → Bool) (hrefl : ∀ a, dd a a = true)
    (l : List α) : listDD dd l l = true := by
  cases l with
  | nil => rfl
  | cons a t => simp [listDD, zip_self_all dd hrefl, hrefl a]

theorem envVarDD_refl (v : EnvVar) : envVarDD v v = true := by
  simp [envVarDD, strDD_refl]

theorem containerDD_refl (c : Container) : containerDD c c = true := by
  simp [containerDD, strDD_refl, listDD_refl envVarDD envVarDD_refl,
    listDD_refl strDD strDD_refl]

theorem podSpecDD_refl (p : PodSpec) : podSpecDD p p = true := by
  simp [podSpecDD, strDD_refl, listDD_refl containerDD containerDD_refl]

theorem listDD_length {α : Type} (dd : α → α → Bool) (n o : List α)
    (hne : n ≠ []) (h : listDD dd n o = true) : n.length = o.length := by
  unfold listDD at h
  rw [if_neg (by simpa [List.isEmpty_iff] using hne)] at h
  rw [Bool.and_eq_true] at h
  exact eq_of_beq h.1

theorem podSpecChanged_eq_specDrift (o n : PodSpec) (hne : n.containers ≠ []) :
    podSpecChanged o n = specDrift n o := by
  unfold podSpecChanged specDrift
  cases hdd : podSpecDD n o with
  | false => simp
  | true =>
    have h1 : listDD containerDD n.containers o.containers = true := by
      have h2 := hdd
      unfold podSpecDD at h2
      rw [Bool.and_eq_true] at h2
      exact h2.1
    have hlen : n.containers.length = o.containers.length :=
      listDD_length containerDD _ _ hne h1
    simp [hlen]

theorem zip_self_any_env_ne (l : List Container) :
    ((l.zip l).any fun p => p.1.env != p.2.env) = false := by
  induction l with
  | nil => rfl
  | cons a t ih => simp [List.zip_cons_cons, ih]

theorem specDrift_self (p : PodSpec) : specDrift p p = false := by
  simp [specDrift, podSpecDD_refl, zip_self_any_env_ne]

/-- C2: when the existing worker deployment is owned by the source, the
deployment reconcile issues an update call, overwriting only the pod spec
of the existing object, exactly when the pod spec has drifted in the
sense of the specification: the desired pod spec is not a
superset-compatible (deep-derivative) match of the current one, or the
environment-variable list of some paired container differs element-wise.
In particular an environment-only difference under a superset-compatible
match still triggers the update, and an exactly matching pod spec issues
zero write calls. -/
theorem createReceiveAdapter_update_iff_drift (ev : Env) (src : Source)
    (sinkURI image es : String) (ra : Deployment)
    (hes : makeEventSource ev src = .ok es)
    (hget : ev.getDeployment (MakeReceiveAdapter src es image sinkURI).name = .found ra)
    (hown : isControlledBy ra src.uid = true) :
    ((createReceiveAdapter ev src sinkURI image).writes =
      if specDrift (MakeReceiveAdapter src es image sinkURI).podSpec ra.podSpec then
        [WriteOp.update
          { ra with podSpec := (MakeReceiveAdapter src es image sinkURI).podSpec }]
      else []) ∧
    (ra.podSpec = (MakeReceiveAdapter src es image sinkURI).podSpec →
      (createReceiveAdapter ev src sinkURI image).writes = []) ∧
    (podSpecDD (MakeReceiveAdapter src es image sinkURI).podSpec ra.podSpec = true →
      (((MakeReceiveAdapter src es image sinkURI).podSpec.containers.zip
          ra.podSpec.containers).any fun p => p.1.env != p.2.env) = true →
      (createReceiveAdapter ev src sinkURI image).writes ≠ []) := by
  have hne : (MakeReceiveAdapter src es image sinkURI).podSpec.containers ≠ [] := by
    simp [MakeReceiveAdapter]
  have hdrift := podSpecChanged_eq_specDrift ra.podSpec
    (MakeReceiveAdapter src es image sinkURI).podSpec hne
  have hmain : (createReceiveAdapter ev src sinkURI image).writes =
      if specDrift (MakeReceiveAdapter src es image sinkURI).podSpec ra.podSpec then
        [WriteOp.update
          { ra with podSpec := (MakeReceiveAdapter src es image sinkURI).podSpec }]
      else [] := by
    unfold createReceiveAdapter
    rw [hes]
    simp only [hget, hown, Bool.not_true, Bool.false_eq_true, if_false, hdrift]
    cases hsd : specDrift (MakeReceiveAdapter src es image sinkURI).podSpec ra.podSpec with
    | false => simp
    | true =>
      cases hu : (ev.updateDeployment
          { ra with podSpec := (MakeReceiveAdapter src es image sinkURI).podSpec }).2 with
      | none => simp [hu]
      | some m => simp [hu]
  refine ⟨hmain, fun heq => ?_, fun hdd hany => ?_⟩
  · rw [hmain, heq, specDrift_self]
    simp
  · rw [hmain]
    have hsd : specDrift (MakeReceiveAdapter src es image sinkURI).podSpec ra.podSpec = true := by
      simp [specDrift, hany]
    rw [hsd]
    simp

/-- Witness for C2: with an owned existing deployment whose pod spec
matches the desired one exactly, the reconcile issues zero write calls. -/
theorem createReceiveAdapter_update_iff_drift_witness :
    (createReceiveAdapter envW2 srcW2 "http://sink.example/" "img").writes = [] :=
  (createReceiveAdapter_update_iff_drift envW2 srcW2 "http://sink.example/" "img"
    "db.example/orders" expW2 rfl rfl rfl).2.1 rfl

/-- C3: when the deployment with the derived name exists but is not
controlled by the source under reconciliation, the deployment reconcile
returns the ownership-conflict error — classified terminal by the
specification taxonomy — and issues zero create or update calls and zero
notification events. -/
theorem createReceiveAdapter_ownership_gate (ev : Env) (src : Source)
    (sinkURI image es : String) (ra : Deployment)
    (hes : makeEventSource ev src = .ok es)
    (hget : ev.getDeployment (MakeReceiveAdapter src es image sinkURI).name = .found ra)
    (hown : isControlledBy ra src.uid = false) :
    (createReceiveAdapter ev src sinkURI image).err =
      some (.notOwned ra.name src.name) ∧
    Err.isTerminalConfig (.notOwned ra.name src.name) = true ∧
    (createReceiveAdapter ev src sinkURI image).writes = [] ∧
    (createReceiveAdapter ev src sinkURI image).events = [] := by
  unfold createReceiveAdapter
  rw [hes]
  simp [hget, hown, Err.isTerminalConfig]

/-- Witness for C3: a deployment with the derived name controlled by a
foreign owner yields the ownership-conflict error. -/
theorem createReceiveAdapter_ownership_gate_witness :
    (createReceiveAdapter envW3 srcW2 "http://sink.example/" "img").err =
      some (.notOwned "couchdbsource-mysource" "mysource") :=
  (createReceiveAdapter_ownership_gate envW3 srcW2 "http://sink.example/" "img"
    "db.example/orders" { expW2 with controller := some "intruder" } rfl rfl rfl).1

/-- C10: when no deployment with the derived name exists, the create call
is issued and the Created notification is recorded unconditionally after
it — with the error value of the create rendered into the message — and
the result and error of the create are returned as-is. -/
theorem createReceiveAdapter_created_event (ev : Env) (src : Source)
    (sinkURI image es : String)
    (hes : makeEventSource ev src = .ok es)
    (hget : ev.getDeployment (MakeReceiveAdapter src es image sinkURI).name = .notFound) :
    (createReceiveAdapter ev src sinkURI image).writes =
      [WriteOp.create (MakeReceiveAdapter src es image sinkURI)] ∧
    (createReceiveAdapter ev src sinkURI image).events =
      ["Deployment created, error: " ++
        fmtGoErr (ev.createDeployment (MakeReceiveAdapter src es image sinkURI)).2] ∧
    (createReceiveAdapter ev src sinkURI image).ra =
      (ev.createDeployment (MakeReceiveAdapter src es image sinkURI)).1 ∧
    (createReceiveAdapter ev src sinkURI image).err =
      ((ev.createDeployment (MakeReceiveAdapter src es image sinkURI)).2).map Err.msg := by
  unfold createReceiveAdapter
  rw [hes]
  simp [hget]

/-- Witness for C10: a failing create still records the notification with
the error embedded, and the error is returned as-is. -/
theorem createReceiveAdapter_created_event_witness :
    (createReceiveAdapter envW10 srcW2 "http://sink.example/" "img").events =
        ["Deployment created, error: boom"] ∧
      (createReceiveAdapter envW10 srcW2 "http://sink.example/" "img").err =
        some (.msg "boom") := by
  have h := createReceiveAdapter_created_event envW10 srcW2 "http://sink.example/" "img"
    "db.example/orders" rfl rfl
  exact ⟨h.2.1, h.2.2.2⟩

/-- C9: when the credentials secret is read successfully but carries no
url key, makeEventSource returns the empty event-source string together
with no error, so the missing key is not signalled as a failure. -/
theorem makeEventSource_missing_url (ev : Env) (src : Source) (secret : SecretData)
    (hget : ev.secretGet
        (if src.spec.credentialsNs == "" then src.ns else src.spec.credentialsNs)
        src.spec.credentialsName = .ok secret)
    (hurl : secret.data.lookup "url" = none) :
    makeEventSource ev src = .ok "" := by
  unfold makeEventSource
  simp only [hget, hurl]

/-- Witness for C9: a secret holding only a username field yields the
empty event source and no error. -/
theorem makeEventSource_missing_url_witness :
    makeEventSource envW9 srcW2 = .ok "" :=
  makeEventSource_missing_url envW9 srcW2 { data := [("username", "admin")] } rfl rfl

theorem applyLoop_spec (f : EventType → Option String) (l : List EventType) :
    (∃ suf, l = (applyLoop f l).1 ++ suf) ∧
    (applyLoop f l).2 = l.findSome? f ∧
    (l.findSome? f = none → (applyLoop f l).1 = l) := by
  induction l with
  | nil => exact ⟨⟨[], rfl⟩, rfl, fun _ => rfl⟩
  | cons e rest ih =>
    cases hf : f e with
    | some m =>
      refine ⟨⟨rest, by simp [applyLoop, hf]⟩, ?_, ?_⟩
      · simp [applyLoop, hf, List.findSome?_cons, hf]
      · intro hz
        rw [List.findSome?_cons, hf] at hz
        cases hz
    | none =>
      obtain ⟨⟨suf, hsuf⟩, hsnd, hall⟩ := ih
      refine ⟨⟨suf, ?_⟩, ?_, ?_⟩
      · simp only [applyLoop, hf]
        rw [List.cons_append, ← hsuf]
      · simp only [applyLoop, hf]
        rw [hsnd, List.findSome?_cons, hf]
      · intro hz
        rw [List.findSome?_cons, hf] at hz
        simp only [applyLoop, hf]
        rw [hall hz]

/-- C5: in the event-type apply step all deletes are issued before any
creates; the operation is not transactional — the first failing delete or
create causes an immediate return of that first error, creates are not
started once a delete fails, and already issued operations are not rolled
back (the trace is a prefix of the deletes followed by a prefix of the
creates) — and when no operation fails, all operations are issued and no
error is returned. -/
theorem applyEventTypes_apply_order (ev : Env) (toCreate toDelete : List EventType) :
    ∃ dPre cPre : List EventType,
      (∃ dSuf, toDelete = dPre ++ dSuf) ∧
      (∃ cSuf, toCreate = cPre ++ cSuf) ∧
      (applyEventTypes ev toCreate toDelete).1 =
        dPre.map ETOp.del ++ cPre.map ETOp.create ∧
      (applyEventTypes ev toCreate toDelete).2 =
        (Option.orElse (toDelete.findSome? ev.deleteEventType)
          fun _ => toCreate.findSome? ev.createEventType).map Err.msg ∧
      (toDelete.findSome? ev.deleteEventType ≠ none → cPre = []) ∧
      ((applyEventTypes ev toCreate toDelete).2 = none →
        dPre = toDelete ∧ cPre = toCreate) := by
  obtain ⟨⟨dSuf, hdSuf⟩, hdsnd, hdall⟩ := applyLoop_spec ev.deleteEventType toDelete
  cases hde : (applyLoop ev.deleteEventType toDelete).2 with
  | some m =>
    have hfirst : toDelete.findSome? ev.deleteEventType = some m := hdsnd.symm.trans hde
    refine ⟨(applyLoop ev.deleteEventType toDelete).1, [],
      ⟨dSuf, hdSuf⟩, ⟨toCreate, rfl⟩, ?_, ?_, fun _ => rfl, ?_⟩
    · simp [applyEventTypes, hde]
    · simp [applyEventTypes, hde, hfirst, Option.orElse]
    · intro hz
      rw [show (applyEventTypes ev toCreate toDelete).2 = some (.msg m) by
        simp [applyEventTypes, hde]] at hz
      cases hz
  | none =>
    have hzero : toDelete.findSome? ev.deleteEventType = none := hdsnd.symm.trans hde
    have hdel : (applyLoop ev.deleteEventType toDelete).1 = toDelete := hdall hzero
    obtain ⟨⟨cSuf, hcSuf⟩, hcsnd, hcall⟩ := applyLoop_spec ev.createEventType toCreate
    refine ⟨toDelete, (applyLoop ev.createEventType toCreate).1,
      ⟨[], by simp⟩, ⟨cSuf, hcSuf⟩, ?_, ?_, ?_, ?_⟩
    · simp [applyEventTypes, hde, hdel]
    · simp [applyEventTypes, hde, hcsnd, hzero, Option.orElse]
    · intro hne
      exact absurd hzero hne
    · intro hz
      rw [show (applyEventTypes ev toCreate toDelete).2 =
          ((applyLoop ev.createEventType toCreate).2).map Err.msg by
        simp [applyEventTypes, hde]] at hz
      have hcz : (applyLoop ev.createEventType toCreate).2 = none := by
        cases hc2 : (applyLoop ev.createEventType toCreate).2 with
        | none => rfl
        | some m => rw [hc2] at hz; cases hz
      exact ⟨rfl, hcall (hcsnd.symm.trans hcz)⟩

/-- Witness for C5: the apply-order theorem instantiated at a concrete
environment where the delete of the record fails, showing the first error
is returned. -/
theorem applyEventTypes_apply_order_witness :
    ∃ dPre cPre : List EventType,
      (∃ dSuf, [etW4] = dPre ++ dSuf) ∧
      (∃ cSuf, ([] : List EventType) = cPre ++ cSuf) ∧
      (applyEventTypes { env0 with deleteEventType := fun _ => some "denied" }
          [] [etW4]).1 = dPre.map ETOp.del ++ cPre.map ETOp.create ∧
      (applyEventTypes { env0 with deleteEventType := fun _ => some "denied" }
          [] [etW4]).2 =
        (Option.orElse
          ([etW4].findSome? (fun _ => some "denied"))
          fun _ => ([] : List EventType).findSome?
            ({ env0 with deleteEventType := fun _ => some "denied" } : Env).createEventType).map
          Err.msg ∧
      (([etW4].findSome? (fun _ => some "denied")) ≠ none → cPre = []) ∧
      ((applyEventTypes { env0 with deleteEventType := fun _ => some "denied" }
          [] [etW4]).2 = none → dPre = [etW4] ∧ cPre = []) :=
  applyEventTypes_apply_order { env0 with deleteEventType := fun _ => some "denied" } [] [etW4]

theorem diffCurrentLoop_nil_map (l : List EventType) :
    diffCurrentLoop [] l = l := by
  induction l with
  | nil => rfl
  | cons c rest ih => simp [diffCurrentLoop, List.lookup, ih]

theorem computeDiff_empty_expected (current : List EventType) :
    computeDiff current [] = ([], current) := by
  show ((diffExpectedLoop (asMap current) []).1,
    (diffExpectedLoop (asMap current) []).2 ++ diffCurrentLoop (asMap []) current) = _
  rw [show asMap [] = ([] : List (String × EventType)) from rfl, diffCurrentLoop_nil_map]
  rfl

/-- C4: the desired event-type set is empty unless the structured sink
reference has kind Broker; when it does (and the event source derives
successfully), the desired set holds exactly one record per supported
event kind constant — the update kind and the delete kind. With an empty
desired set, computeDiff places every current owned record in toDelete,
so switching the sink away from a broker deletes all previously created
records on the next pass. -/
theorem makeEventTypes_broker_gating (ev : Env) (src : Source) (current : List EventType) :
    (sinkGetRef src.spec.sink = none → makeEventTypes ev src = .ok []) ∧
    (∀ r, sinkGetRef src.spec.sink = some r → r.kind ≠ "Broker" →
      makeEventTypes ev src = .ok []) ∧
    (∀ r es, sinkGetRef src.spec.sink = some r → r.kind = "Broker" →
      makeEventSource ev src = .ok es →
      makeEventTypes ev src =
        .ok [MakeEventType src es CouchDbSourceUpdateEventType,
             MakeEventType src es CouchDbSourceDeleteEventType]) ∧
    computeDiff current [] = ([], current) := by
  refine ⟨?_, ?_, ?_, computeDiff_empty_expected current⟩
  · intro h
    unfold makeEventTypes
    rw [h]
  · intro r hr hk
    unfold makeEventTypes
    rw [hr]
    simp [bne_iff_ne, hk]
  · intro r es hr hk hes
    unfold makeEventTypes
    rw [hr]
    simp [hk, hes, couchDbEventTypes]

/-- Witness for C4: a non-broker sink yields the empty desired set, a
broker sink yields exactly the two records, and the diff against an empty
desired set deletes the owned record. -/
theorem makeEventTypes_broker_gating_witness :
    makeEventTypes env0 srcW4nb = .ok [] ∧
    makeEventTypes env0 srcW2 =
      .ok [MakeEventType srcW2 "db.example/orders" CouchDbSourceUpdateEventType,
           MakeEventType srcW2 "db.example/orders" CouchDbSourceDeleteEventType] ∧
    computeDiff [etW4] [] = ([], [etW4]) :=
  ⟨(makeEventTypes_broker_gating env0 srcW4nb [etW4]).2.1
      { kind := "Service", name := "svc", ns := "default", apiVersion := "v1" }
      rfl (by decide),
   (makeEventTypes_broker_gating env0 srcW2 [etW4]).2.2.1
      { kind := "Broker", name := "default-broker", ns := "default", apiVersion := "v1" }
      "db.example/orders" rfl rfl rfl,
   (makeEventTypes_broker_gating env0 srcW2 [etW4]).2.2.2⟩

/-- C6: a source with no sink configured makes ReconcileKind mark the
SinkMissing condition and return the missing-sink error — terminal per
the specification taxonomy — recording no sink resolution, no deployment
write or event, and no event-type operation. -/
theorem ReconcileKind_missing_sink (ev : Env) (image : String) (source : Source)
    (h : source.spec.sink = none) :
    (ReconcileKind ev image source).err = some .sinkMissing ∧
    Err.isTerminalConfig .sinkMissing = true ∧
    (ReconcileKind ev image source).marks =
      [.initialized, .noSink "SinkMissing"] ∧
    (ReconcileKind ev image source).resolverCalls = [] ∧
    (ReconcileKind ev image source).deployWrites = [] ∧
    (ReconcileKind ev image source).deployEvents = [] ∧
    (ReconcileKind ev image source).etOps = [] := by
  unfold ReconcileKind
  rw [h]
  exact ⟨rfl, rfl, rfl, rfl, rfl, rfl, rfl⟩

/-- Witness for C6: the concrete sink-less source yields the missing-sink
error. -/
theorem ReconcileKind_missing_sink_witness :
    (ReconcileKind env0 "img" srcW6).err = some .sinkMissing :=
  (ReconcileKind_missing_sink env0 "img" srcW6 rfl).1

/-- C7: when the structured sink reference lacks a namespace, every
destination handed to the sink resolver is the deep copy of the sink with
the namespace of the source filled in, and the spec of the source — in
particular its sink — is unchanged when ReconcileKind returns. -/
theorem ReconcileKind_sink_default_no_persist (ev : Env) (image : String)
    (source : Source) (sink : Destination) (r : ObjectRef)
    (hs : source.spec.sink = some sink) (hr : sink.ref = some r) (hns : r.ns = "") :
    (∀ d ∈ (ReconcileKind ev image source).resolverCalls,
      d = { sink with ref := some { r with ns := source.ns } }) ∧
    (ReconcileKind ev image source).source.spec = source.spec := by
  have hdest : defaultDest sink source =
      { sink with ref := some { r with ns := source.ns } } := by
    simp [defaultDest, hr, hns]
  constructor
  · unfold ReconcileKind
    rw [hs]
    dsimp only
    cases hres : ev.resolveURI (defaultDest sink source) with
    | error e =>
      simp only [hres]
      intro d hd
      simp at hd
      rw [hd, hdest]
    | ok uri =>
      simp only [hres]
      cases ha : (createReceiveAdapter ev source uri image).err with
      | some e2 =>
        simp only [ha]
        intro d hd
        simp at hd
        rw [hd, hdest]
      | none =>
        simp only [ha]
        cases he2 : (reconcileEventTypes ev source).2 with
        | some e3 =>
          simp only [he2]
          intro d hd
          simp at hd
          rw [hd, hdest]
        | none =>
          simp only [he2]
          intro d hd
          simp at hd
          rw [hd, hdest]
  · unfold ReconcileKind
    rw [hs]
    dsimp only
    cases hres : ev.resolveURI (defaultDest sink source) with
    | error e => simp only [hres]
    | ok uri =>
      simp only [hres]
      cases ha : (createReceiveAdapter ev source uri image).err with
      | some e2 => simp only [ha]
      | none =>
        simp only [ha]
        cases he2 : (reconcileEventTypes ev source).2 with
        | some e3 => simp only [he2]
        | none => simp only [he2]

/-- Witness for C7: the concrete source whose sink reference lacks a
namespace leaves its spec untouched. -/
theorem ReconcileKind_sink_default_no_persist_witness :
    (ReconcileKind env0 "img" srcW7).source.spec = srcW7.spec :=
  (ReconcileKind_sink_default_no_persist env0 "img" srcW7
    (Destination.mk
      (some { kind := "Broker", name := "default-broker", ns := "", apiVersion := "v1" })
      "" "" "" "")
    { kind := "Broker", name := "default-broker", ns := "", apiVersion := "v1" }
    rfl rfl rfl).2

theorem rk_err_or_marks (ev : Env) (image : String) (source : Source) :
    (ReconcileKind ev image source).err = none ∨
    ∃ m ∈ (ReconcileKind ev image source).marks, m ≠ StatusMark.initialized := by
  unfold ReconcileKind
  cases hsink : source.spec.sink with
  | none => exact Or.inr ⟨.noSink "SinkMissing", by simp, by simp⟩
  | some sink =>
    dsimp only
    cases hres : ev.resolveURI (defaultDest sink source) with
    | error e =>
      simp only [hres]
      exact Or.inr ⟨.noSink "NotFound", by simp, by simp⟩
    | ok uri =>
      simp only [hres]
      cases ha : (createReceiveAdapter ev source uri image).err with
      | some e2 =>
        simp only [ha]
        by_cases hdep : (sink.deprecatedAPIVersion != "" && sink.deprecatedKind != "" &&
            sink.deprecatedName != "") = true
        · exact Or.inr ⟨.sinkWarnRefDeprecated uri, by simp [hdep], by simp⟩
        · exact Or.inr ⟨.sink uri, by simp [hdep], by simp⟩
      | none =>
        simp only [ha]
        cases he2 : (reconcileEventTypes ev source).2 with
        | some e3 =>
          simp only [he2]
          exact Or.inr ⟨.noEventTypes "EventTypesReconcileFailed", by simp, by simp⟩
        | none =>
          simp only [he2]
          exact Or.inl trivial

/-- C8: every invocation of ReconcileKind that returns an error records at
least one status-condition update beyond the initial condition
initialization before returning. -/
theorem ReconcileKind_failure_updates_status (ev : Env) (image : String)
    (source : Source) (h : (ReconcileKind ev image source).err ≠ none) :
    ∃ m ∈ (ReconcileKind ev image source).marks, m ≠ StatusMark.initialized := by
  rcases rk_err_or_marks ev image source with hnone | hex
  · exact absurd hnone h
  · exact hex

/-- Witness for C8: the failing sink-less reconcile records the missing
sink condition. -/
theorem ReconcileKind_failure_updates_status_witness :
    ∃ m ∈ (ReconcileKind env0 "img" srcW6).marks, m ≠ StatusMark.initialized :=
  ReconcileKind_failure_updates_status env0 "img" srcW6 (by decide)

end CouchDb
